import Mathlib

/-!
Shallow embedding of `src/sku_date_checker.py` (the `google-api`
repository): the token-bucket rate limiter (`RateLimiter`), the CSV
producer (`SkuCheckerApp._producer_from_csv`), the worker fetch loop with
retry/backoff (`SkuCheckerApp._fetch_order_details` and
`SkuCheckerApp._worker_consume`), the aggregator drain and finalization
logic (`SkuCheckerApp._check_queue`), and a small-step model of the
worker/pause-gate interaction.

Python floats are modelled as rationals (`ℚ`); the monotonic clock
`time.monotonic()` is an explicit nonnegative-increment parameter; raised
Python exceptions are modelled with `Except`; `time.sleep` is recorded as
an event in an explicit trace.
-/

namespace SkuChecker

/-- State of `RateLimiter` (sku_date_checker.py, lines 77-95): `capacity`,
`tokens`, `fill_rate = capacity / 60`, and `timestamp`, the monotonic time
of the last refill. -/
structure RateLimiter where
  capacity : ℚ
  tokens : ℚ
  fill_rate : ℚ
  timestamp : ℚ
deriving DecidableEq

/-- `RateLimiter.__init__(per_minute)` (lines 79-84): `capacity =
max(per_minute, 1)`, the bucket starts full, `fill_rate = capacity / 60.0`,
and `timestamp = time.monotonic()` at construction time `now`. -/
def RateLimiter.init (per_minute : ℤ) (now : ℚ) : RateLimiter :=
  ⟨((max per_minute 1 : ℤ) : ℚ), ((max per_minute 1 : ℤ) : ℚ),
    ((max per_minute 1 : ℤ) : ℚ) / 60, now⟩

/-- Outcome of one iteration of the `while True` loop in
`RateLimiter.acquire` (lines 85-95): either a token was debited and
`acquire` returns, or the lock is released and the caller sleeps for the
returned duration before retrying. -/
inductive AcqOutcome
  | granted
  | sleepFor (d : ℚ)
deriving DecidableEq

/-- One iteration of `RateLimiter.acquire` under the lock (lines 87-95):
`now = time.monotonic()`, `elapsed = now - self.timestamp`, refill
`tokens = min(capacity, tokens + elapsed * fill_rate)`; if `tokens >= 1.0`
debit one token and return, otherwise release the lock and
`time.sleep(0.02)`. -/
def acquireStep (rl : RateLimiter) (now : ℚ) : RateLimiter × AcqOutcome :=
  if 1 ≤ min rl.capacity (rl.tokens + (now - rl.timestamp) * rl.fill_rate) then
    ({ rl with
        tokens := min rl.capacity (rl.tokens + (now - rl.timestamp) * rl.fill_rate) - 1,
        timestamp := now }, .granted)
  else
    ({ rl with
        tokens := min rl.capacity (rl.tokens + (now - rl.timestamp) * rl.fill_rate),
        timestamp := now }, .sleepFor (1/50))

/-- The sequence of limiter states observed outside the critical section:
the state before any call and the state after each successive lock
acquisition (each element of `nows` is the monotonic clock reading of one
`acquireStep`). -/
def rlTrace (rl : RateLimiter) (nows : List ℚ) : List RateLimiter :=
  List.scanl (fun r n => (acquireStep r n).1) rl nows

/-- Invariant of the limiter state: fixed capacity and fill rate, capacity
at least one, and tokens within `[0, capacity]`. -/
def RLinv (cap : ℚ) (r : RateLimiter) : Prop :=
  r.capacity = cap ∧ r.fill_rate = cap / 60 ∧ 1 ≤ cap ∧
    0 ≤ r.tokens ∧ r.tokens ≤ cap

theorem acquireStep_inv {cap : ℚ} {r : RateLimiter} {now : ℚ}
    (h : RLinv cap r) (hn : r.timestamp ≤ now) :
    RLinv cap (acquireStep r now).1 ∧ (acquireStep r now).1.timestamp = now := by
  obtain ⟨hc, hf, h1, h0, hcap⟩ := h
  have he : 0 ≤ now - r.timestamp := sub_nonneg.mpr hn
  have hfr : 0 ≤ r.fill_rate := by
    rw [hf]; positivity
  have ht0 : 0 ≤ min r.capacity (r.tokens + (now - r.timestamp) * r.fill_rate) := by
    apply le_min
    · rw [hc]; linarith
    · exact add_nonneg h0 (mul_nonneg he hfr)
  have htc : min r.capacity (r.tokens + (now - r.timestamp) * r.fill_rate) ≤ cap := by
    rw [← hc]; exact min_le_left _ _
  unfold acquireStep
  by_cases hge : 1 ≤ min r.capacity (r.tokens + (now - r.timestamp) * r.fill_rate)
  · rw [if_pos hge]
    refine ⟨⟨hc, hf, h1, ?_, ?_⟩, rfl⟩
    · show (0 : ℚ) ≤ min r.capacity (r.tokens + (now - r.timestamp) * r.fill_rate) - 1
      linarith
    · show min r.capacity (r.tokens + (now - r.timestamp) * r.fill_rate) - 1 ≤ cap
      linarith
  · rw [if_neg hge]
    exact ⟨⟨hc, hf, h1, ht0, htc⟩, rfl⟩

theorem rlTrace_inv {cap : ℚ} :
    ∀ (nows : List ℚ) (r : RateLimiter), RLinv cap r →
      List.Chain' (· ≤ ·) (r.timestamp :: nows) →
      ∀ x ∈ rlTrace r nows, RLinv cap x := by
  intro nows
  induction nows with
  | nil =>
      intro r hr _ x hx
      simp only [rlTrace, List.scanl_nil, List.mem_singleton] at hx
      exact hx ▸ hr
  | cons n ns ih =>
      intro r hr hchain x hx
      rw [List.chain'_cons] at hchain
      obtain ⟨hle, hchain'⟩ := hchain
      obtain ⟨hinv', hts⟩ := acquireStep_inv hr hle
      simp only [rlTrace, List.scanl_cons, List.singleton_append, List.mem_cons] at hx
      rcases hx with rfl | hx
      · exact hr
      · exact ih ((acquireStep r n).1) hinv' (by rw [hts]; exact hchain') x hx

/-- Claim C9: for every constructor argument `per_minute` (including zero
and negative values, clamped so that `capacity ≥ 1`), and any monotone
sequence of clock readings observed by successive `acquire` loop
iterations, the limiter state satisfies `0 ≤ tokens ≤ capacity` (with
unchanged capacity) at every observation point outside the lock's critical
section. -/
theorem c9_rate_limiter_invariant (per_minute : ℤ) (t0 : ℚ) (nows : List ℚ)
    (hmono : List.Chain' (· ≤ ·) (t0 :: nows)) :
    1 ≤ (RateLimiter.init per_minute t0).capacity ∧
    ∀ x ∈ rlTrace (RateLimiter.init per_minute t0) nows,
      0 ≤ x.tokens ∧ x.tokens ≤ x.capacity ∧
      x.capacity = (RateLimiter.init per_minute t0).capacity := by
  have h1 : (1 : ℚ) ≤ ((max per_minute 1 : ℤ) : ℚ) := by
    exact_mod_cast le_max_right per_minute 1
  have hinv : RLinv ((max per_minute 1 : ℤ) : ℚ) (RateLimiter.init per_minute t0) := by
    refine ⟨rfl, rfl, h1, ?_, ?_⟩
    · show (0 : ℚ) ≤ ((max per_minute 1 : ℤ) : ℚ)
      linarith
    · show ((max per_minute 1 : ℤ) : ℚ) ≤ ((max per_minute 1 : ℤ) : ℚ)
      exact le_refl _
  refine ⟨h1, ?_⟩
  intro x hx
  have hts : (RateLimiter.init per_minute t0).timestamp = t0 := rfl
  have := rlTrace_inv nows (RateLimiter.init per_minute t0) hinv (by rw [hts]; exact hmono) x hx
  obtain ⟨hc, _, _, h0, hcap⟩ := this
  exact ⟨h0, by rw [hc]; exact hcap, hc⟩

/-- Witness for C9 at `per_minute = 0`, `t0 = 0`, clock readings `[1, 2]`. -/
theorem c9_rate_limiter_invariant_witness :
    1 ≤ (RateLimiter.init 0 0).capacity ∧
    ∀ x ∈ rlTrace (RateLimiter.init 0 0) [1, 2],
      0 ≤ x.tokens ∧ x.tokens ≤ x.capacity ∧
      x.capacity = (RateLimiter.init 0 0).capacity :=
  c9_rate_limiter_invariant 0 0 [1, 2] (by norm_num)

/-- Claim C2 counterexample: with `per_minute = 1` and an empty bucket
(state `⟨capacity 1, tokens 0, fill_rate 1/60, timestamp 0⟩`, reached after
one granted acquisition), the code sleeps the fixed polling interval
`0.02` seconds, which is not the exact wait `(1 - tokens) / fill_rate = 60`
seconds that the claim states. -/
theorem c2_counterexample :
    (acquireStep ⟨1, 0, 1/60, 0⟩ 0).2 = AcqOutcome.sleepFor (1/50) ∧
    ((1 : ℚ)/50) ≠ (1 - (0 : ℚ)) / (1/60) := by
  constructor
  · norm_num [acquireStep]
  · norm_num

/-- Claim C2 (amended): on each `acquire` loop iteration the refill step
sets `tokens` to `min(capacity, tokens + elapsed * fill_rate)` using the
monotonic clock; if the refilled tokens are `≥ 1` the call debits exactly
one token and returns immediately; otherwise the caller releases the lock
and sleeps a fixed `0.02` seconds (the polling interval) before retrying —
not the exact remaining wait `(1 - tokens) / fill_rate`. -/
theorem c2_acquire_refill_debit_or_fixed_sleep (rl : RateLimiter) (now : ℚ) :
    (1 ≤ min rl.capacity (rl.tokens + (now - rl.timestamp) * rl.fill_rate) →
      acquireStep rl now =
        ({ rl with
            tokens := min rl.capacity (rl.tokens + (now - rl.timestamp) * rl.fill_rate) - 1,
            timestamp := now }, AcqOutcome.granted)) ∧
    (min rl.capacity (rl.tokens + (now - rl.timestamp) * rl.fill_rate) < 1 →
      acquireStep rl now =
        ({ rl with
            tokens := min rl.capacity (rl.tokens + (now - rl.timestamp) * rl.fill_rate),
            timestamp := now }, AcqOutcome.sleepFor (1/50))) := by
  constructor
  · intro h
    simp only [acquireStep, if_pos h]
  · intro h
    have h' : ¬ (1 ≤ min rl.capacity (rl.tokens + (now - rl.timestamp) * rl.fill_rate)) :=
      not_le.mpr h
    simp only [acquireStep, if_neg h']

/-- Witness for the amended C2 at a full bucket of capacity one. -/
theorem c2_acquire_refill_debit_or_fixed_sleep_witness :
    acquireStep ⟨1, 1, 1/60, 0⟩ 0 =
      ({ capacity := 1, tokens := 0, fill_rate := 1/60, timestamp := 0 },
        AcqOutcome.granted) := by
  have h := (c2_acquire_refill_debit_or_fixed_sleep ⟨1, 1, 1/60, 0⟩ 0).1 (by norm_num)
  rw [h]
  norm_num

/-- One CSV row as read by `pd.read_csv(..., usecols=['sku','stock_qty'])`:
the `sku` cell (`none` models NaN, dropped by `.dropna()`) and the
`stock_qty` cell (`none` models NaN, mapped to `0` by `.fillna(0)`). -/
structure CsvRow where
  sku : Option String
  stock_qty : Option ℤ
deriving DecidableEq

/-- The surviving key sequence of `_producer_from_csv` (lines 351-359)
before the seen-set: rows whose `stock_qty.fillna(0) == 0`, with NaN skus
dropped, in source order. The `seen` set is global across chunks, so the
chunk structure is irrelevant to the surviving sequence and the rows are
modelled flat. -/
def survivors (rows : List CsvRow) : List String :=
  (rows.filter (fun r => decide (r.stock_qty.getD 0 = 0))).filterMap (fun r => r.sku)

/-- The seen-set dedupe loop of `_producer_from_csv` (lines 360-366): for
each surviving key, `if sku not in seen: seen.add(sku); task_queue.put(sku)`.
Returns the sequence of keys pushed to the Task Queue (cancellation not
signalled). -/
def producerLoop (seen : List String) : List String → List String
  | [] => []
  | sku :: rest =>
    if sku ∈ seen then producerLoop seen rest
    else sku :: producerLoop (sku :: seen) rest

/-- `SkuCheckerApp._producer_from_csv` (lines 347-377), restricted to the
keys it enqueues: filter, then dedupe with an initially empty seen set. -/
def producerFromCsv (rows : List CsvRow) : List String :=
  producerLoop [] (survivors rows)

/-- Spec-side dedupe, written from the spec's words: keep each distinct
key once, at its first occurrence, in source order. -/
def firstOccSpec : List String → List String
  | [] => []
  | x :: xs => x :: firstOccSpec (xs.filter (fun y => decide (y ≠ x)))
termination_by l => l.length
decreasing_by
  simp only [List.length_cons]
  exact Nat.lt_succ_of_le (List.length_filter_le _ _)

theorem firstOccSpec_nil : firstOccSpec [] = [] := by
  rw [firstOccSpec]

theorem firstOccSpec_cons (x : String) (xs : List String) :
    firstOccSpec (x :: xs) = x :: firstOccSpec (xs.filter (fun y => decide (y ≠ x))) := by
  rw [firstOccSpec]

theorem producerLoop_mem :
    ∀ (l seen : List String) (x : String),
      x ∈ producerLoop seen l ↔ (x ∈ l ∧ x ∉ seen) := by
  intro l
  induction l with
  | nil => intro seen x; simp [producerLoop]
  | cons a xs ih =>
      intro seen x
      by_cases ha : a ∈ seen
      · rw [producerLoop, if_pos ha, ih]
        constructor
        · rintro ⟨hx, hs⟩; exact ⟨List.mem_cons_of_mem _ hx, hs⟩
        · rintro ⟨hx, hs⟩
          rcases List.mem_cons.mp hx with rfl | hx
          · exact absurd ha hs
          · exact ⟨hx, hs⟩
      · rw [producerLoop, if_neg ha]
        simp only [List.mem_cons, ih, not_or]
        constructor
        · rintro (rfl | ⟨hx, _, hns⟩)
          · exact ⟨Or.inl rfl, ha⟩
          · exact ⟨Or.inr hx, hns⟩
        · rintro ⟨hax, hs⟩
          rcases hax with rfl | hx
          · exact Or.inl rfl
          · by_cases hxa : x = a
            · exact Or.inl hxa
            · exact Or.inr ⟨hx, hxa, hs⟩

theorem producerLoop_nodup :
    ∀ (l seen : List String), (producerLoop seen l).Nodup := by
  intro l
  induction l with
  | nil => intro seen; simp [producerLoop]
  | cons a xs ih =>
      intro seen
      by_cases ha : a ∈ seen
      · rw [producerLoop, if_pos ha]; exact ih seen
      · rw [producerLoop, if_neg ha]
        refine List.nodup_cons.mpr ⟨?_, ih (a :: seen)⟩
        intro hmem
        exact ((producerLoop_mem xs (a :: seen) a).mp hmem).2 (List.mem_cons_self a seen)

theorem producerLoop_eq_firstOccSpec :
    ∀ (l seen : List String),
      producerLoop seen l = firstOccSpec (l.filter (fun y => decide (y ∉ seen))) := by
  intro l
  induction l with
  | nil => intro seen; simp [producerLoop, firstOccSpec_nil]
  | cons a xs ih =>
      intro seen
      by_cases ha : a ∈ seen
      · rw [producerLoop, if_pos ha, List.filter_cons_of_neg (by simp [ha]), ih]
      · rw [producerLoop, if_neg ha, List.filter_cons_of_pos (by simp [ha]),
          firstOccSpec_cons, List.filter_filter, ih (a :: seen)]
        congr 2
        apply List.filter_congr
        intro y _
        by_cases hy : y = a
        · subst hy; simp
        · by_cases hys : y ∈ seen <;> simp [hy, hys]

/-- Concrete source rows whose surviving key sequence is
`["A", "B", "A", "C", "B"]`: a nonzero-stock row and a NaN-sku row are
interleaved to exercise the filter. -/
def exampleRows : List CsvRow :=
  [⟨some "A", some 0⟩, ⟨some "B", none⟩, ⟨some "X", some 3⟩,
   ⟨none, some 0⟩, ⟨some "A", some 0⟩, ⟨some "C", some 0⟩, ⟨some "B", some 0⟩]

/-- Claim C3: the producer enqueues exactly one Task per distinct
surviving key (the output is duplicate-free and contains exactly the
surviving keys), in order of first occurrence in the source (it equals the
spec-side first-occurrence dedup); in particular the surviving key
sequence `["A", "B", "A", "C", "B"]` yields exactly the 3 Tasks
`A, B, C` in that order. -/
theorem c3_producer_dedupes_in_first_occurrence_order :
    (∀ rows : List CsvRow,
      producerFromCsv rows = firstOccSpec (survivors rows) ∧
      (producerFromCsv rows).Nodup ∧
      (∀ x : String, x ∈ producerFromCsv rows ↔ x ∈ survivors rows)) ∧
    survivors exampleRows = ["A", "B", "A", "C", "B"] ∧
    producerFromCsv exampleRows = ["A", "B", "C"] := by
  refine ⟨fun rows => ⟨?_, producerLoop_nodup _ _, fun x => ?_⟩, ?_, ?_⟩
  · rw [producerFromCsv, producerLoop_eq_firstOccSpec]
    congr 1
    apply (List.filter_eq_self).mpr
    intro y _
    simp
  · rw [producerFromCsv, producerLoop_mem]
    simp
  · decide
  · decide

/-- Pipeline counters owned by the aggregator
(`SkuCheckerApp._start_processing` resets them, lines 324-328;
`SkuCheckerApp._check_queue` increments them, lines 410-414). -/
structure Counters where
  total_processed : ℕ
  total_ok : ℕ
  total_err : ℕ
deriving DecidableEq

/-- Counter state at run start (`_start_processing`, lines 324-328). -/
def Counters.reset : Counters := ⟨0, 0, 0⟩

/-- Processing of one drained non-`None` item in `_check_queue`
(lines 409-414): `total_processed += 1` and, depending on
`str(item['status_code']) == "200"`, exactly one of `total_ok` and
`total_err` is incremented. -/
def drainOne (c : Counters) (status_code : String) : Counters :=
  { total_processed := c.total_processed + 1,
    total_ok := if status_code = "200" then c.total_ok + 1 else c.total_ok,
    total_err := if status_code = "200" then c.total_err else c.total_err + 1 }

/-- Processing of one drained queue item (lines 397-399): a `None` item is
skipped (`continue`), any other item updates the counters. -/
def drainStep (c : Counters) (item : Option String) : Counters :=
  match item with
  | none => c
  | some status_code => drainOne c status_code

/-- All counter states observed between drain steps, starting from the
reset state: the drained items are abstracted to their status codes
(`none` models a `None` queue item). -/
def drainStates (items : List (Option String)) : List Counters :=
  List.scanl drainStep Counters.reset items

theorem drainOne_sum (c : Counters) (s : String) :
    (drainOne c s).total_processed = c.total_processed + 1 ∧
    (drainOne c s).total_ok + (drainOne c s).total_err = c.total_ok + c.total_err + 1 := by
  unfold drainOne
  by_cases h : s = "200" <;> simp [h] <;> omega

theorem drainStates_inv :
    ∀ (items : List (Option String)) (c : Counters),
      c.total_processed = c.total_ok + c.total_err →
      ∀ x ∈ List.scanl drainStep c items,
        x.total_processed = x.total_ok + x.total_err := by
  intro items
  induction items with
  | nil =>
      intro c hc x hx
      simp only [List.scanl_nil, List.mem_singleton] at hx
      exact hx ▸ hc
  | cons i rest ih =>
      intro c hc x hx
      simp only [List.scanl_cons, List.singleton_append, List.mem_cons] at hx
      rcases hx with rfl | hx
      · exact hc
      · refine ih (drainStep c i) ?_ x hx
        cases i with
        | none => exact hc
        | some s =>
            obtain ⟨hp, hsum⟩ := drainOne_sum c s
            simp only [drainStep]
            omega

/-- Claim C10: starting from the reset counters, at every point between
aggregator drain steps `total_processed = total_ok + total_err` holds, and
each drained non-`None` Result increments `total_processed` by one and
exactly one of `total_ok` (status code `"200"`) or `total_err` (any other
status). -/
theorem c10_counters_invariant :
    (∀ items : List (Option String), ∀ x ∈ drainStates items,
      x.total_processed = x.total_ok + x.total_err) ∧
    (∀ (c : Counters) (s : String),
      (drainOne c s).total_processed = c.total_processed + 1 ∧
      ((s = "200" →
          (drainOne c s).total_ok = c.total_ok + 1 ∧
          (drainOne c s).total_err = c.total_err) ∧
       (s ≠ "200" →
          (drainOne c s).total_ok = c.total_ok ∧
          (drainOne c s).total_err = c.total_err + 1))) := by
  constructor
  · intro items x hx
    exact drainStates_inv items Counters.reset rfl x hx
  · intro c s
    refine ⟨(drainOne_sum c s).1, ?_, ?_⟩
    · intro h; simp [drainOne, h]
    · intro h; simp [drainOne, h]

/-- Witness for C10 on a concrete drain sequence (an ok result, a `None`
item, and an error result). -/
theorem c10_counters_invariant_witness :
    (∀ x ∈ drainStates [some "200", none, some "429"],
      x.total_processed = x.total_ok + x.total_err) ∧
    (drainOne Counters.reset "200").total_ok = Counters.reset.total_ok + 1 :=
  ⟨c10_counters_invariant.1 [some "200", none, some "429"],
   ((c10_counters_invariant.2 Counters.reset "200").2.1 rfl).1⟩

/-- The observation `_check_queue` makes on one timer tick (lines
439-441): `total_processed`, `total_to_process` (published by the producer
when streaming ends, line 376), `task_queue.unfinished_tasks`, and whether
`result_queue.empty()` returned true. -/
structure AggObs where
  processed : ℕ
  to_process : ℕ
  unfinished : ℕ
  resqEmpty : Bool
deriving DecidableEq

/-- The finalization condition of `_check_queue` (lines 439-441):
`total_processed >= total_to_process > 0 and task_queue.unfinished_tasks
== 0 and result_queue.empty()`. -/
def finalizeCond (o : AggObs) : Bool :=
  decide (o.to_process ≤ o.processed ∧ 0 < o.to_process ∧
    o.unfinished = 0 ∧ o.resqEmpty = true)

/-- Lifecycle state relevant to finalization: `is_processing` and how many
times `_finalize_processing` has run. -/
structure AggSt where
  processing : Bool
  finalized : ℕ
deriving DecidableEq

/-- One `_check_queue` timer tick (lines 435-442): when `is_processing` is
false the callback returns without testing the condition; when it is true
and the condition holds, `_finalize_processing` runs (committing the
partial batch) and sets `is_processing := false` (line 482), so later
ticks are no-ops. -/
def checkQueueStep (s : AggSt) (o : AggObs) : AggSt :=
  if s.processing then
    if finalizeCond o then ⟨false, s.finalized + 1⟩ else s
  else s

/-- Claim C6 counterexample: in a run in which zero Tasks were enqueued,
the quiescent observation is `processed = 0`, `to_process = 0`,
`unfinished = 0`, empty result queue — the finalization condition is false
(it requires `to_process > 0`) and the tick is a fixpoint of the
processing state, so the aggregator never performs the final commit and
never signals completion, contradicting the claim. -/
theorem c6_counterexample :
    finalizeCond ⟨0, 0, 0, true⟩ = false ∧
    checkQueueStep ⟨true, 0⟩ ⟨0, 0, 0, true⟩ = ⟨true, 0⟩ := by
  constructor
  · decide
  · decide

/-- Claim C6 (amended): for every run in which at least one Task was
enqueued — once the Streamer has emitted its sentinels and published
`total_to_process = total_enqueued > 0`, all workers have exited, and both
queues are empty (`unfinished = 0`, result queue empty, `processed ≥
to_process`) — the aggregator performs exactly one final commit
(`finalized = 1` after the first tick and after every later tick) and
signals completion, and `processed = enqueued` holds at that point; a run
in which zero Tasks were enqueued never triggers finalization, because the
condition requires `to_process > 0`. -/
theorem c6_finalize_once_when_nonempty (o : AggObs) (enq n : ℕ)
    (hcond : finalizeCond o = true)
    (henq : o.to_process = enq)
    (hle : o.processed ≤ enq) :
    o.processed = enq ∧
    (checkQueueStep · o)^[n + 1] ⟨true, 0⟩ = ⟨false, 1⟩ := by
  have hc := of_decide_eq_true hcond
  obtain ⟨hge, hpos, _, _⟩ := hc
  constructor
  · omega
  · have hstep1 : checkQueueStep ⟨true, 0⟩ o = ⟨false, 1⟩ := by
      simp [checkQueueStep, hcond]
    have hfix : ∀ m : ℕ, (checkQueueStep · o)^[m] ⟨false, 1⟩ = ⟨false, 1⟩ := by
      intro m
      induction m with
      | zero => rfl
      | succ k ihk =>
          rw [Function.iterate_succ_apply, show checkQueueStep ⟨false, 1⟩ o = ⟨false, 1⟩ from rfl, ihk]
    rw [Function.iterate_succ_apply, hstep1, hfix]

/-- Witness for the amended C6 at `to_process = processed = enqueued = 3`,
two extra ticks. -/
theorem c6_finalize_once_when_nonempty_witness :
    (3 : ℕ) = 3 ∧ (checkQueueStep · ⟨3, 3, 0, true⟩)^[2] ⟨true, 0⟩ = ⟨false, 1⟩ := by
  have h := c6_finalize_once_when_nonempty ⟨3, 3, 0, true⟩ 3 1 (by decide) rfl (by norm_num)
  exact ⟨rfl, h.2⟩

/-- A `Retry-After` header value as the code reads it (lines 513-517):
either parses as a float, or raises `ValueError` in `float(ra)`. -/
inductive RetryAfter
  | num (q : ℚ)
  | malformed
deriving DecidableEq

/-- One entry of the parsed payload's `results` list (lines 528-530):
`order_reference` and `order_date` fields, each possibly absent
(`.get` defaults apply). -/
structure Order where
  order_reference : Option String
  order_date : Option String
deriving DecidableEq

/-- A parsed 200-payload (lines 524-526): `count` and `results`. -/
structure Payload where
  count : ℕ
  results : List Order
deriving DecidableEq

/-- One remote interaction as seen by `self.http.request(...)` (line 509):
a transport-level `requests.exceptions.RequestException`, any other raised
exception, or a response with status code, optional `Retry-After` header,
reason phrase, and payload (`none` models a body on which `resp.json()` or
the field extraction raises). -/
inductive RespEvent
  | transportExn
  | otherExn
  | resp (code : ℕ) (retryAfter : Option RetryAfter) (reason : String)
      (body : Option Payload)
deriving DecidableEq

/-- The per-task result record built by `_fetch_order_details`
(lines 486-487): `sku`, parsed order date (as a day ordinal), days since,
order reference / error summary, result count, and status code string. -/
structure ResultDict where
  sku : String
  order_date_obj : Option ℤ
  days_since : Option ℤ
  order_ref : String
  count : ℕ
  status_code : String
deriving DecidableEq

/-- `base_result` as initialized at lines 486-487. -/
def baseResult (sku : String) : ResultDict :=
  ⟨sku, none, none, "N/A", 0, "N/A"⟩

/-- The two exception classes distinguished by the handlers at lines
543-548: `requests.exceptions.RequestException` and any other `Exception`. -/
inductive PyExn
  | requestExn
  | generalExn
deriving DecidableEq

/-- State of the retry loop of `_fetch_order_details` plus an event trace:
the monotonic clock (advanced only by sleeps), the remaining remote
responses, the mutable `base_result`, and the recorded request count,
sleep durations and cancellation-check times. -/
structure LoopSt where
  clock : ℚ
  resps : List RespEvent
  base : ResultDict
  requests : ℕ
  sleeps : List ℚ
  checks : List ℚ
deriving DecidableEq

/-- Whether `self.stop_event.is_set()` returns true at monotonic time
`clock`, when the stop request was issued at time `stopAt`. -/
def stopTriggered (stopAt : Option ℚ) (clock : ℚ) : Bool :=
  match stopAt with
  | none => false
  | some t => decide (t ≤ clock)

/-- The 429 backoff delay (lines 513-517): the server-provided
`Retry-After` when present and parsable as a float, otherwise the linear
fallback `1.5 * (attempt + 1)` (also used when `float(ra)` raises
`ValueError`). -/
def backoff429 (ra : Option RetryAfter) (attempt : ℕ) : ℚ :=
  match ra with
  | some (.num q) => q
  | some .malformed => (3/2) * ((attempt : ℚ) + 1)
  | none => (3/2) * ((attempt : ℚ) + 1)

/-- Handling of a parsed 200-payload (lines 524-539): set `count`; if
`results` is nonempty take the first order, record its reference, and
parse its date — on date-parse failure record `"Invalid Date: …"` in the
reference field; on empty `results` record `"No Orders Found"`.
`parseDate` abstracts `datetime.fromisoformat` plus the days-since
computation, returning `none` when parsing raises. -/
def handle200 (parseDate : String → Option (ℤ × ℤ)) (body : Payload)
    (r : ResultDict) : ResultDict :=
  match body.results with
  | [] => { r with count := body.count, order_ref := "No Orders Found" }
  | order :: _ =>
    match parseDate (order.order_date.getD "") with
    | some (d, ds) =>
        { r with count := body.count,
                 order_ref := order.order_reference.getD "N/A",
                 order_date_obj := some d, days_since := some ds }
    | none =>
        { r with count := body.count,
                 order_ref := "Invalid Date: " ++ order.order_date.getD "" }

/-- Outcome of one iteration of the `for attempt in range(5)` loop:
either continue to the next attempt, or the loop ends (normally, by
`break`, or by a raised exception). -/
inductive IterOut
  | next (st : LoopSt)
  | finish (r : Except (PyExn × LoopSt) LoopSt)

/-- One iteration of the retry loop (lines 506-542): check the stop event;
issue the request (an empty response list models a connection that can no
longer answer, i.e. a transport exception); record the status code; on 429
sleep the backoff and continue, on 5xx sleep `1.5 * (attempt + 1)` and
continue, on 200 parse (a `none` body raises, caught as a general
exception), otherwise record `"API Error: …"` and break. -/
def fetchIter (parseDate : String → Option (ℤ × ℤ)) (stopAt : Option ℚ)
    (attempt : ℕ) (st : LoopSt) : IterOut :=
  let st1 : LoopSt := { st with checks := st.checks ++ [st.clock] }
  if stopTriggered stopAt st1.clock then .finish (.ok st1)
  else
    match st1.resps with
    | [] => .finish (.error (.requestExn, { st1 with requests := st1.requests + 1 }))
    | ev :: rest =>
      let st2 : LoopSt := { st1 with resps := rest, requests := st1.requests + 1 }
      match ev with
      | .transportExn => .finish (.error (.requestExn, st2))
      | .otherExn => .finish (.error (.generalExn, st2))
      | .resp code ra reason body =>
        let st3 : LoopSt :=
          { st2 with base := { st2.base with status_code := toString code } }
        if code = 429 then
          .next { st3 with sleeps := st3.sleeps ++ [backoff429 ra attempt],
                           clock := st3.clock + backoff429 ra attempt }
        else if 500 ≤ code ∧ code < 600 then
          .next { st3 with sleeps := st3.sleeps ++ [(3/2) * ((attempt : ℚ) + 1)],
                           clock := st3.clock + (3/2) * ((attempt : ℚ) + 1) }
        else if code = 200 then
          match body with
          | none => .finish (.error (.generalExn, st3))
          | some p => .finish (.ok { st3 with base := handle200 parseDate p st3.base })
        else
          .finish (.ok { st3 with base :=
            { st3.base with order_ref := "API Error: " ++ reason } })

/-- The `for attempt in range(5)` loop (line 506): `fuel` is the number of
attempts left, `attempt` the current index; when the range is exhausted
the loop falls through and the current `base_result` is returned. -/
def fetchLoop (parseDate : String → Option (ℤ × ℤ)) (stopAt : Option ℚ) :
    ℕ → ℕ → LoopSt → Except (PyExn × LoopSt) LoopSt
  | 0, _, st => .ok st
  | fuel + 1, attempt, st =>
    match fetchIter parseDate stopAt attempt st with
    | .next st' => fetchLoop parseDate stopAt fuel (attempt + 1) st'
    | .finish r => r

/-- The loop state carried by either outcome. -/
def outState : Except (PyExn × LoopSt) LoopSt → LoopSt
  | .ok st => st
  | .error (_, st) => st

/-- The state carried by an iteration outcome. -/
def iterState : IterOut → LoopSt
  | .next st => st
  | .finish r => outState r

/-- The exception handlers at lines 543-548: both return the (partially
updated) `base_result` with an error summary, resetting `status_code` to
`"N/A"`. -/
def exnResult : PyExn → ResultDict → ResultDict
  | .requestExn, r => { r with order_ref := "Request Exception", status_code := "N/A" }
  | .generalExn, r => { r with order_ref := "General Exception", status_code := "N/A" }

/-- Recorded trace of one `_fetch_order_details` call: number of request
attempts issued, sleep durations in order, and the monotonic times at
which the stop event was polled. -/
structure FetchTrace where
  requests : ℕ
  sleeps : List ℚ
  checks : List ℚ
deriving DecidableEq

/-- `SkuCheckerApp._fetch_order_details` (lines 484-549): run the retry
loop from a fresh `base_result` starting at clock 0; a raised exception is
caught and converted into an error result. Always returns exactly one
`ResultDict`. -/
def fetchOrderDetails (parseDate : String → Option (ℤ × ℤ)) (stopAt : Option ℚ)
    (sku : String) (resps : List RespEvent) : ResultDict × FetchTrace :=
  match fetchLoop parseDate stopAt 5 0 ⟨0, resps, baseResult sku, 0, [], []⟩ with
  | .ok st => (st.base, ⟨st.requests, st.sleeps, st.checks⟩)
  | .error (e, st) => (exnResult e st.base, ⟨st.requests, st.sleeps, st.checks⟩)

/-- A date parser that always fails, for concrete runs that never reach
date parsing or are meant to fail it. -/
def pdNone : String → Option (ℤ × ℤ) := fun _ => none

theorem handle200_sku (pd : String → Option (ℤ × ℤ)) (p : Payload) (r : ResultDict) :
    (handle200 pd p r).sku = r.sku := by
  obtain ⟨cnt, results⟩ := p
  cases results with
  | nil => rfl
  | cons o rest =>
      simp only [handle200]
      cases pd (o.order_date.getD "") with
      | none => rfl
      | some v =>
          obtain ⟨d, ds⟩ := v
          rfl

theorem fetchIter_cases (pd : String → Option (ℤ × ℤ)) (stopAt : Option ℚ)
    (attempt : ℕ) (st : LoopSt) :
    (∀ st', fetchIter pd stopAt attempt st = .next st' →
      stopTriggered stopAt st.clock = false ∧
      st'.checks = st.checks ++ [st.clock] ∧
      st'.requests = st.requests + 1 ∧
      st'.base.sku = st.base.sku ∧
      ∃ d, st'.sleeps = st.sleeps ++ [d] ∧ st'.clock = st.clock + d) ∧
    (∀ r, fetchIter pd stopAt attempt st = .finish r →
      (outState r).checks = st.checks ++ [st.clock] ∧
      (outState r).sleeps = st.sleeps ∧
      (outState r).clock = st.clock ∧
      (outState r).requests ≤ st.requests + 1 ∧
      (outState r).base.sku = st.base.sku) := by
  cases hstop : stopTriggered stopAt st.clock
  · cases hr : st.resps with
    | nil =>
        constructor
        · intro st' h
          simp [fetchIter, hstop, hr] at h
        · intro r h
          simp [fetchIter, hstop, hr] at h
          simp [← h, outState]
    | cons ev rest =>
        cases ev with
        | transportExn =>
            constructor
            · intro st' h; simp [fetchIter, hstop, hr] at h
            · intro r h
              simp [fetchIter, hstop, hr] at h
              simp [← h, outState]
        | otherExn =>
            constructor
            · intro st' h; simp [fetchIter, hstop, hr] at h
            · intro r h
              simp [fetchIter, hstop, hr] at h
              simp [← h, outState]
        | resp code ra reason body =>
            by_cases h429 : code = 429
            · constructor
              · intro st' h
                simp [fetchIter, hstop, hr, h429] at h
                simp [← h, hstop]
              · intro r h
                simp [fetchIter, hstop, hr, h429] at h
            · by_cases h5xx : 500 ≤ code ∧ code < 600
              · constructor
                · intro st' h
                  simp [fetchIter, hstop, hr, h429, h5xx] at h
                  simp [← h, hstop]
                · intro r h
                  simp [fetchIter, hstop, hr, h429, h5xx] at h
              · by_cases h200 : code = 200
                · cases body with
                  | none =>
                      constructor
                      · intro st' h
                        simp [fetchIter, hstop, hr, h429, h5xx, h200] at h
                      · intro r h
                        simp [fetchIter, hstop, hr, h429, h5xx, h200] at h
                        simp [← h, outState]
                  | some p =>
                      constructor
                      · intro st' h
                        simp [fetchIter, hstop, hr, h429, h5xx, h200] at h
                      · intro r h
                        simp [fetchIter, hstop, hr, h429, h5xx, h200] at h
                        simp [← h, outState, handle200_sku]
                · constructor
                  · intro st' h
                    simp [fetchIter, hstop, hr, h429, h5xx, h200] at h
                  · intro r h
                    simp [fetchIter, hstop, hr, h429, h5xx, h200] at h
                    simp [← h, outState]
  · constructor
    · intro st' h
      simp [fetchIter, hstop] at h
    · intro r h
      simp [fetchIter, hstop] at h
      simp [← h, outState]

theorem fetchLoop_requests_le (pd : String → Option (ℤ × ℤ)) (stopAt : Option ℚ) :
    ∀ (fuel attempt : ℕ) (st : LoopSt),
      (outState (fetchLoop pd stopAt fuel attempt st)).requests ≤ st.requests + fuel := by
  intro fuel
  induction fuel with
  | zero => intro attempt st; simp [fetchLoop, outState]
  | succ f ih =>
      intro attempt st
      cases hIt : fetchIter pd stopAt attempt st with
      | next st' =>
          obtain ⟨_, _, hreq, _, _⟩ := (fetchIter_cases pd stopAt attempt st).1 st' hIt
          have := ih (attempt + 1) st'
          simp only [fetchLoop, hIt]
          omega
      | finish r =>
          have h := ((fetchIter_cases pd stopAt attempt st).2 r hIt).2.2.2.1
          simp only [fetchLoop, hIt]
          omega

theorem fetchTrace_eq (pd : String → Option (ℤ × ℤ)) (stopAt : Option ℚ)
    (sku : String) (resps : List RespEvent) :
    (fetchOrderDetails pd stopAt sku resps).2 =
      ⟨(outState (fetchLoop pd stopAt 5 0 ⟨0, resps, baseResult sku, 0, [], []⟩)).requests,
       (outState (fetchLoop pd stopAt 5 0 ⟨0, resps, baseResult sku, 0, [], []⟩)).sleeps,
       (outState (fetchLoop pd stopAt 5 0 ⟨0, resps, baseResult sku, 0, [], []⟩)).checks⟩ := by
  unfold fetchOrderDetails
  cases h : fetchLoop pd stopAt 5 0 ⟨0, resps, baseResult sku, 0, [], []⟩ with
  | ok st => simp [outState]
  | error e =>
      obtain ⟨ex, st⟩ := e
      simp [outState]

theorem scanl_add_append_singleton (a : ℚ) :
    ∀ (S : List ℚ) (d : ℚ),
      List.scanl (· + ·) a (S ++ [d]) = List.scanl (· + ·) a S ++ [a + S.sum + d] := by
  intro S
  induction S generalizing a with
  | nil => intro d; simp [List.scanl_cons, List.scanl_nil]
  | cons s S' ih =>
      intro d
      rw [List.cons_append, List.scanl_cons, ih (a + s) d, List.scanl_cons, List.sum_cons,
        List.cons_append]
      have h : a + s + S'.sum + d = a + (s + S'.sum) + d := by ring
      rw [h]
      simp

theorem scanl_add_eq_dropLast_append (a : ℚ) :
    ∀ S : List ℚ,
      List.scanl (· + ·) a S = (List.scanl (· + ·) a S).dropLast ++ [a + S.sum] := by
  intro S
  induction S generalizing a with
  | nil => simp [List.scanl_nil]
  | cons s S' ih =>
      have hne : List.scanl (· + ·) (a + s) S' ≠ [] := by
        have hlen : (List.scanl (· + ·) (a + s) S').length = S'.length + 1 :=
          List.length_scanl _ _
        intro hc
        rw [hc] at hlen
        simp at hlen
      rw [List.scanl_cons, List.singleton_append, List.sum_cons,
        List.dropLast_cons_of_ne_nil hne, List.cons_append]
      conv_lhs => rw [ih (a + s)]
      rw [add_assoc]

theorem fetchLoop_trace (pd : String → Option (ℤ × ℤ)) (stopAt : Option ℚ) :
    ∀ (fuel attempt : ℕ) (st : LoopSt),
      st.clock = st.sleeps.sum →
      st.checks = (List.scanl (· + ·) 0 st.sleeps).dropLast →
      (∀ t, stopAt = some t → ∀ c ∈ st.checks, c < t) →
      (outState (fetchLoop pd stopAt fuel attempt st)).checks =
        (List.scanl (· + ·) 0
            (outState (fetchLoop pd stopAt fuel attempt st)).sleeps).take
          (outState (fetchLoop pd stopAt fuel attempt st)).checks.length ∧
      (∀ t, stopAt = some t →
        ∀ c ∈ (outState (fetchLoop pd stopAt fuel attempt st)).checks.dropLast, c < t) := by
  intro fuel
  induction fuel with
  | zero =>
      intro attempt st hclock hchecks hpast
      simp only [fetchLoop, outState]
      constructor
      · rw [hchecks, List.dropLast_eq_take]
        congr 1
        simp only [List.length_take, List.length_scanl]
        omega
      · intro t ht c hc
        exact hpast t ht c (List.dropLast_subset _ hc)
  | succ f ih =>
      intro attempt st hclock hchecks hpast
      cases hIt : fetchIter pd stopAt attempt st with
      | next st' =>
          obtain ⟨hstop, hch, _, _, d, hsl, hck⟩ :=
            (fetchIter_cases pd stopAt attempt st).1 st' hIt
          simp only [fetchLoop, hIt]
          apply ih (attempt + 1) st'
          · rw [hck, hsl, hclock]
            simp
          · rw [hch, hsl, scanl_add_append_singleton, List.dropLast_concat, hchecks]
            conv_rhs => rw [scanl_add_eq_dropLast_append]
            rw [hclock]
            simp
          · intro t ht c hc
            rw [hch, List.mem_append] at hc
            rcases hc with hc | hc
            · exact hpast t ht c hc
            · simp only [List.mem_singleton] at hc
              subst hc
              rw [ht] at hstop
              simp only [stopTriggered, decide_eq_false_iff_not, not_le] at hstop
              exact hstop
      | finish r =>
          obtain ⟨hch, hsl, _, _, _⟩ := (fetchIter_cases pd stopAt attempt st).2 r hIt
          simp only [fetchLoop, hIt]
          constructor
          · rw [hch, hsl, hchecks]
            have h2 : (List.scanl (· + ·) 0 st.sleeps).dropLast ++ [st.clock] =
                List.scanl (· + ·) 0 st.sleeps := by
              rw [hclock]
              have h3 := scanl_add_eq_dropLast_append 0 st.sleeps
              rw [zero_add] at h3
              exact h3.symm
            rw [h2, List.take_length]
          · intro t ht c hc
            rw [hch, List.dropLast_concat] at hc
            exact hpast t ht c hc

/-- The scenario of the spec's retry/backoff test: three 429 responses
without `Retry-After`, then a 200 whose payload parses (empty results). -/
def threeTimes429 : List RespEvent :=
  [.resp 429 none "Too Many Requests" none, .resp 429 none "Too Many Requests" none,
   .resp 429 none "Too Many Requests" none, .resp 200 none "OK" (some ⟨1, []⟩)]

/-- Claim C4: the three-429s-then-200 endpoint yields exactly 4 request
attempts and one ok (status `"200"`) Result with non-decreasing backoff
delays `[1.5, 3.0, 4.5]`; a server-provided numeric `Retry-After` is used
as the delay when present; and every retry counts against the 5-attempt
budget (no run issues more than 5 requests). -/
theorem c4_retry_backoff_four_attempts (pd : String → Option (ℤ × ℤ)) (sku : String) :
    ((fetchOrderDetails pd none sku threeTimes429).2.requests = 4 ∧
     (fetchOrderDetails pd none sku threeTimes429).1.status_code = "200" ∧
     (fetchOrderDetails pd none sku threeTimes429).2.sleeps = [3/2, 3, 9/2] ∧
     List.Chain' (· ≤ ·) (fetchOrderDetails pd none sku threeTimes429).2.sleeps) ∧
    (∀ q : ℚ, (fetchOrderDetails pd none sku
        [.resp 429 (some (.num q)) "Too Many Requests" none,
         .resp 200 none "OK" (some ⟨1, []⟩)]).2.sleeps = [q]) ∧
    (∀ (stopAt : Option ℚ) (resps : List RespEvent),
      (fetchOrderDetails pd stopAt sku resps).2.requests ≤ 5) := by
  have hsl : (fetchOrderDetails pd none sku threeTimes429).2.sleeps = [3/2, 3, 9/2] := by
    norm_num [fetchOrderDetails, fetchLoop, fetchIter, stopTriggered, backoff429,
      handle200, baseResult, outState, exnResult, threeTimes429]
  refine ⟨⟨?_, ?_, hsl, ?_⟩, fun q => ?_, fun stopAt resps => ?_⟩
  · norm_num [fetchOrderDetails, fetchLoop, fetchIter, stopTriggered, backoff429,
      handle200, baseResult, outState, exnResult, threeTimes429]
  · norm_num [fetchOrderDetails, fetchLoop, fetchIter, stopTriggered, backoff429,
      handle200, baseResult, outState, exnResult, threeTimes429]
    rfl
  · rw [hsl]
    norm_num [List.chain'_cons]
  · norm_num [fetchOrderDetails, fetchLoop, fetchIter, stopTriggered, backoff429,
      handle200, baseResult, outState, exnResult]
  · rw [fetchTrace_eq]
    exact fetchLoop_requests_le pd stopAt 5 0 _

/-- Claim C7 counterexample: a 200 response whose payload fails to parse
is not recorded with the HTTP status captured — `resp.json()` raises, the
outer `except Exception` handler (lines 546-548) runs, and the Result
carries `status_code = "N/A"` and `order_ref = "General Exception"`. -/
theorem c7_counterexample :
    (fetchOrderDetails pdNone none "S" [.resp 200 none "OK" none]).1.status_code = "N/A" ∧
    (fetchOrderDetails pdNone none "S" [.resp 200 none "OK" none]).1.order_ref =
      "General Exception" ∧
    (fetchOrderDetails pdNone none "S" [.resp 200 none "OK" none]).1.status_code ≠ "200" := by
  refine ⟨rfl, rfl, ?_⟩
  decide

/-- Claim C7 (amended): when the remote lookup returns HTTP 200 but the
response payload fails to parse (`resp.json()` raises), the worker still
produces exactly one Result, but it is classified as a generic exception:
`status_code` is reset to `"N/A"` (the received status is not captured)
and the parsed fields are null. Only a failure to parse the order-date
field inside a parsable payload produces the degraded Result the claim
describes, with the HTTP status `"200"` captured, the date fields null,
and the invalid date recorded. -/
theorem c7_parse_failure_results (sku reason : String) (ra : Option RetryAfter)
    (pd : String → Option (ℤ × ℤ)) (cnt : ℕ) (ref raw : String)
    (hraw : pd raw = none) :
    (fetchOrderDetails pd none sku [.resp 200 ra reason none]).1 =
      { sku := sku, order_date_obj := none, days_since := none,
        order_ref := "General Exception", count := 0, status_code := "N/A" } ∧
    (fetchOrderDetails pd none sku
        [.resp 200 ra reason (some ⟨cnt, [⟨some ref, some raw⟩]⟩)]).1 =
      { sku := sku, order_date_obj := none, days_since := none,
        order_ref := "Invalid Date: " ++ raw, count := cnt, status_code := "200" } := by
  constructor
  · rfl
  · have h1 : fetchOrderDetails pd none sku
        [.resp 200 ra reason (some ⟨cnt, [⟨some ref, some raw⟩]⟩)] =
        (handle200 pd ⟨cnt, [⟨some ref, some raw⟩]⟩
          { baseResult sku with status_code := "200" }, ⟨1, [], [0]⟩) := rfl
    rw [h1]
    simp [handle200, hraw, baseResult]

/-- Witness for the amended C7 at concrete inputs. -/
theorem c7_parse_failure_results_witness :
    (fetchOrderDetails pdNone none "S" [.resp 200 none "OK" none]).1 =
      { sku := "S", order_date_obj := none, days_since := none,
        order_ref := "General Exception", count := 0, status_code := "N/A" } ∧
    (fetchOrderDetails pdNone none "S"
        [.resp 200 none "OK" (some ⟨2, [⟨some "R1", some "bad-date"⟩]⟩)]).1 =
      { sku := "S", order_date_obj := none, days_since := none,
        order_ref := "Invalid Date: bad-date", count := 2, status_code := "200" } :=
  c7_parse_failure_results "S" "OK" none pdNone 2 "R1" "bad-date" rfl

/-- A 429 with a 10-second `Retry-After`, then a parsable 200. -/
def stopMidBackoff : List RespEvent :=
  [.resp 429 (some (.num 10)) "Too Many Requests" none,
   .resp 200 none "OK" (some ⟨1, []⟩)]

/-- Claim C8 counterexample: with a stop requested at time 0.5 during the
10-second backoff sleep (which began at time 0), the cancellation polls
happen only at times 0 and 10 — `time.sleep(sleep_s)` at line 518 runs to
completion with no check inside it — so the stop is honored 9.5 seconds
after it was issued, not within a sub-second polling interval. -/
theorem c8_counterexample :
    (fetchOrderDetails pdNone (some (1/2)) "S" stopMidBackoff).2.sleeps = [10] ∧
    (fetchOrderDetails pdNone (some (1/2)) "S" stopMidBackoff).2.checks = [0, 10] ∧
    (fetchOrderDetails pdNone (some (1/2)) "S" stopMidBackoff).2.requests = 1 ∧
    (1/2 : ℚ) < 10 ∧ ¬ ((10 : ℚ) - 1/2 ≤ 1) := by
  refine ⟨?_, ?_, ?_, by norm_num, by norm_num⟩ <;>
    norm_num [fetchOrderDetails, fetchLoop, fetchIter, stopTriggered, backoff429,
      handle200, baseResult, outState, exnResult, stopMidBackoff]

/-- Claim C8 (amended): during a single Task's retry loop the cancellation
signal is checked once at the head of each request attempt and nowhere
else: every poll time is a full prefix sum of the backoff sleeps (no poll
occurs inside a sleep), and every poll except possibly the final one found
the signal unset, so a stop issued mid-backoff is honored only after the
full backoff sleep completes, at the next attempt's head. -/
theorem c8_cancellation_polled_at_attempt_heads (pd : String → Option (ℤ × ℤ))
    (stopAt : Option ℚ) (sku : String) (resps : List RespEvent) :
    (fetchOrderDetails pd stopAt sku resps).2.checks =
      (List.scanl (· + ·) 0 (fetchOrderDetails pd stopAt sku resps).2.sleeps).take
        (fetchOrderDetails pd stopAt sku resps).2.checks.length ∧
    (∀ t, stopAt = some t →
      ∀ c ∈ (fetchOrderDetails pd stopAt sku resps).2.checks.dropLast, c < t) := by
  rw [fetchTrace_eq]
  exact fetchLoop_trace pd stopAt 5 0 ⟨0, resps, baseResult sku, 0, [], []⟩ (by simp)
    (by simp [List.scanl_nil]) (by intro t ht c hc; simp at hc)

/-- Witness for the amended C8: with a stop at time 20 and the 10-second
backoff scenario, the non-final poll at time 0 indeed found the signal
unset. -/
theorem c8_cancellation_polled_at_attempt_heads_witness : (0 : ℚ) < 20 :=
  (c8_cancellation_polled_at_attempt_heads pdNone (some 20) "S" stopMidBackoff).2 20 rfl 0
    (by norm_num [fetchOrderDetails, fetchLoop, fetchIter, stopTriggered, backoff429,
      handle200, baseResult, outState, exnResult, stopMidBackoff])

theorem exnResult_sku (e : PyExn) (r : ResultDict) : (exnResult e r).sku = r.sku := by
  cases e <;> rfl

theorem fetchLoop_sku (pd : String → Option (ℤ × ℤ)) (stopAt : Option ℚ) :
    ∀ (fuel attempt : ℕ) (st : LoopSt),
      (outState (fetchLoop pd stopAt fuel attempt st)).base.sku = st.base.sku := by
  intro fuel
  induction fuel with
  | zero => intro attempt st; simp [fetchLoop, outState]
  | succ f ih =>
      intro attempt st
      cases hIt : fetchIter pd stopAt attempt st with
      | next st' =>
          obtain ⟨_, _, _, hsku, _⟩ := (fetchIter_cases pd stopAt attempt st).1 st' hIt
          simp only [fetchLoop, hIt]
          rw [ih (attempt + 1) st', hsku]
      | finish r =>
          have hsku := ((fetchIter_cases pd stopAt attempt st).2 r hIt).2.2.2.2
          simp only [fetchLoop, hIt]
          exact hsku

theorem fetchOrderDetails_sku (pd : String → Option (ℤ × ℤ)) (stopAt : Option ℚ)
    (sku : String) (resps : List RespEvent) :
    (fetchOrderDetails pd stopAt sku resps).1.sku = sku := by
  have hloop := fetchLoop_sku pd stopAt 5 0 ⟨0, resps, baseResult sku, 0, [], []⟩
  unfold fetchOrderDetails
  cases h : fetchLoop pd stopAt 5 0 ⟨0, resps, baseResult sku, 0, [], []⟩ with
  | ok st =>
      rw [h] at hloop
      simpa [outState, baseResult] using hloop
  | error e =>
      obtain ⟨ex, st⟩ := e
      rw [h] at hloop
      simp only [outState] at hloop
      simpa [exnResult_sku, baseResult] using hloop

/-- The worker loop `_worker_consume` (lines 378-391): while the stop
event is unset, dequeue one item; a `None` sentinel ends the loop;
otherwise wait on the pause gate, acquire the rate limiter, call
`_fetch_order_details`, and push the result to the Result Queue. `tasks`
is the sequence the Task Queue will deliver to this worker, `env` gives
each key's remote responses, `stopAfter` is the loop-head iteration index
(counted from `k`) at which the stop event is first observed set; the
blocking waits (gate, limiter, queue) are modelled as completing. Returns
the dequeued non-sentinel keys and the results pushed, in order. -/
def stopObserved (stopAfter : Option ℕ) (k : ℕ) : Bool :=
  match stopAfter with
  | some s => decide (s ≤ k)
  | none => false

def workerConsume (pd : String → Option (ℤ × ℤ)) (env : String → List RespEvent)
    (stopAfter : Option ℕ) : ℕ → List (Option String) → List String × List ResultDict
  | _, [] => ([], [])
  | k, item :: rest =>
    if stopObserved stopAfter k then ([], [])
    else
      match item with
      | none => ([], [])
      | some sku =>
        let out := workerConsume pd env stopAfter (k + 1) rest
        (sku :: out.1, (fetchOrderDetails pd none sku (env sku)).1 :: out.2)

/-- Claim C1: for every sequence of queue deliveries and every remote
behaviour — success, parse failure, HTTP error status, exhausted retries,
transport-level or other exceptions alike — the worker pushes exactly one
Result per dequeued non-sentinel Task (the pushed list is precisely the
image of the dequeued list under the handler-wrapped, total
`_fetch_order_details`), and each Result carries its input key; no
exception escapes the loop, since both `except` arms of
`_fetch_order_details` return a Result. -/
theorem c1_worker_one_result_per_dequeued_task (pd : String → Option (ℤ × ℤ))
    (env : String → List RespEvent) (stopAfter : Option ℕ) :
    (∀ (k : ℕ) (tasks : List (Option String)),
      (workerConsume pd env stopAfter k tasks).2 =
        (workerConsume pd env stopAfter k tasks).1.map
          (fun sku => (fetchOrderDetails pd none sku (env sku)).1) ∧
      (workerConsume pd env stopAfter k tasks).2.length =
        (workerConsume pd env stopAfter k tasks).1.length) ∧
    (∀ (sku : String) (resps : List RespEvent),
      (fetchOrderDetails pd none sku resps).1.sku = sku) := by
  constructor
  · intro k tasks
    induction tasks generalizing k with
    | nil => simp [workerConsume]
    | cons item rest ih =>
        cases hstop : stopObserved stopAfter k
        · cases item with
          | none => simp [workerConsume, hstop]
          | some sku =>
              obtain ⟨hmap, hlen⟩ := ih (k + 1)
              simp only [workerConsume, hstop, Bool.false_eq_true, if_false,
                List.map_cons, List.length_cons]
              exact ⟨by rw [hmap], by rw [hlen]⟩
        · simp [workerConsume, hstop]
  · intro sku resps
    exact fetchOrderDetails_sku pd none sku resps

/-- Witness for C1 on a concrete queue: two tasks with remote behaviours
covering a success and a transport exception, then the sentinel. -/
theorem c1_worker_one_result_per_dequeued_task_witness :
    ((workerConsume pdNone (fun _ => [.resp 200 none "OK" (some ⟨1, []⟩)]) none 0
        [some "A", some "B", none, some "C"]).2.length =
      (workerConsume pdNone (fun _ => [.resp 200 none "OK" (some ⟨1, []⟩)]) none 0
        [some "A", some "B", none, some "C"]).1.length) ∧
    (fetchOrderDetails pdNone none "K" [.transportExn]).1.sku = "K" :=
  ⟨((c1_worker_one_result_per_dequeued_task pdNone
      (fun _ => [.resp 200 none "OK" (some ⟨1, []⟩)]) none).1 0
      [some "A", some "B", none, some "C"]).2,
   (c1_worker_one_result_per_dequeued_task pdNone
      (fun _ => [.resp 200 none "OK" (some ⟨1, []⟩)]) none).2 "K" [.transportExn]⟩

/-- Program counter of one worker thread inside `_worker_consume`
(lines 378-391): at the loop head, holding a dequeued key before
`pause_event.wait()`, past the gate, holding a fetched result before the
push, or exited. -/
inductive WPC
  | idle
  | got (sku : String)
  | pastPause (sku : String)
  | fetched (res : ResultDict)
  | exited
deriving DecidableEq

/-- Shared pipeline state seen by one worker and the lifecycle controller:
the two queues, the pause gate (`pause_event`), the stop flag
(`stop_event`), and the worker's program counter. -/
structure PipeState where
  taskQueue : List (Option String)
  resultQueue : List ResultDict
  pauseOpen : Bool
  stopSet : Bool
  wpc : WPC
deriving DecidableEq

/-- Small-step transitions of the worker loop (lines 380-391) interleaved
with the controller's pause/resume/stop actions (lines 575-590). The
`dequeue` step mirrors the source order exactly: `task_queue.get()` at
line 381 runs before `pause_event.wait()` at line 386, so dequeuing does
not consult the pause gate; only `passPause` does. -/
inductive PipeStep (pd : String → Option (ℤ × ℤ)) (env : String → List RespEvent) :
    PipeState → PipeState → Prop
  | dequeue (s : PipeState) (sku : String) (rest : List (Option String)) :
      s.wpc = .idle → s.stopSet = false → s.taskQueue = some sku :: rest →
      PipeStep pd env s { s with taskQueue := rest, wpc := .got sku }
  | sentinel (s : PipeState) (rest : List (Option String)) :
      s.wpc = .idle → s.stopSet = false → s.taskQueue = none :: rest →
      PipeStep pd env s { s with taskQueue := rest, wpc := .exited }
  | stopExit (s : PipeState) :
      s.wpc = .idle → s.stopSet = true →
      PipeStep pd env s { s with wpc := .exited }
  | passPause (s : PipeState) (sku : String) :
      s.wpc = .got sku → s.pauseOpen = true →
      PipeStep pd env s { s with wpc := .pastPause sku }
  | remoteCall (s : PipeState) (sku : String) :
      s.wpc = .pastPause sku →
      PipeStep pd env s
        { s with wpc := .fetched (fetchOrderDetails pd none sku (env sku)).1 }
  | pushResult (s : PipeState) (res : ResultDict) :
      s.wpc = .fetched res →
      PipeStep pd env s { s with resultQueue := s.resultQueue ++ [res], wpc := .idle }
  | pauseClose (s : PipeState) :
      PipeStep pd env s { s with pauseOpen := false }
  | pauseReopen (s : PipeState) :
      PipeStep pd env s { s with pauseOpen := true }
  | stopRequest (s : PipeState) :
      PipeStep pd env s { s with stopSet := true }

/-- Start of a run with one queued task, gate open. -/
def pauseS0 : PipeState := ⟨[some "A"], [], true, false, .idle⟩

/-- After the controller closed the pause gate. -/
def pauseS1 : PipeState := ⟨[some "A"], [], false, false, .idle⟩

/-- After the worker dequeued `"A"` while the gate was closed. -/
def pauseS2 : PipeState := ⟨[], [], false, false, .got "A"⟩

/-- Claim C5 counterexample: a concrete reachable trace in which the
controller closes the pause gate and the worker then dequeues a new Task
from the Task Queue while the gate is still closed — `task_queue.get()`
(line 381) runs before `pause_event.wait()` (line 386), so a closed gate
does not prevent one dequeue per worker. -/
theorem c5_counterexample :
    PipeStep pdNone (fun _ => []) pauseS0 pauseS1 ∧
    PipeStep pdNone (fun _ => []) pauseS1 pauseS2 ∧
    pauseS1.pauseOpen = false ∧
    pauseS1.taskQueue = [some "A"] ∧
    pauseS2.taskQueue = [] ∧ pauseS2.wpc = .got "A" := by
  refine ⟨?_, ?_, rfl, rfl, rfl, rfl⟩
  · exact PipeStep.pauseClose pauseS0
  · exact PipeStep.dequeue pauseS1 "A" [] rfl rfl rfl

/-- Claim C5 (amended): while the pause gate is closed, a worker may still
dequeue one new Task (the dequeue runs before the gate wait), but it makes
no further progress on it — it blocks before the remote call until the
gate reopens — and a Task already past the gate or mid remote-call is
allowed to finish and push its Result even while the gate stays closed. -/
theorem c5_pause_blocks_processing_not_dequeue (pd : String → Option (ℤ × ℤ))
    (env : String → List RespEvent) :
    (∀ (s s' : PipeState) (sku : String),
      PipeStep pd env s s' → s.pauseOpen = false → s.wpc = .got sku →
      s'.wpc = .got sku ∧ s'.taskQueue = s.taskQueue ∧ s'.resultQueue = s.resultQueue) ∧
    (∀ (s : PipeState) (sku : String), s.wpc = .pastPause sku →
      PipeStep pd env s
        { s with wpc := .fetched (fetchOrderDetails pd none sku (env sku)).1 }) ∧
    (∀ (s : PipeState) (res : ResultDict), s.wpc = .fetched res →
      PipeStep pd env s { s with resultQueue := s.resultQueue ++ [res], wpc := .idle }) := by
  refine ⟨?_, fun s sku h => PipeStep.remoteCall s sku h,
    fun s res h => PipeStep.pushResult s res h⟩
  intro s s' sku hstep hpause hwpc
  cases hstep <;> simp_all

/-- Mid-flight state: the gate is closed and the worker holds a fetched
result. -/
def inflightState : PipeState := ⟨[], [], false, false, .fetched (baseResult "A")⟩

/-- Witness for the amended C5: from `inflightState` (gate closed, result
fetched) the worker can still push its Result. -/
theorem c5_pause_blocks_processing_not_dequeue_witness :
    PipeStep pdNone (fun _ => []) inflightState
      { inflightState with
          resultQueue := inflightState.resultQueue ++ [baseResult "A"], wpc := .idle } :=
  (c5_pause_blocks_processing_not_dequeue pdNone (fun _ => [])).2.2 inflightState
    (baseResult "A") rfl

end SkuChecker
